import Mathlib

/-!
Shallow embedding of `src/seesaw/externalprocess.py` (seesaw-kit).

The Python class `ExternalProcess(Task)` runs an external process on a
tornado IO loop, pumps its pty output into the item's log, polls for the
exit status, and drives a retry state machine.  The embedding below makes
the mutable state explicit (the item's `tries` counter) and records every
externally visible call (logging, lifecycle callbacks, timer registrations,
process starts) as an event in a trace, in the order the Python code makes
the calls.
-/

namespace Seesaw

/-- Configuration of an `ExternalProcess` task, from `ExternalProcess.__init__`
(src/seesaw/externalprocess.py lines 16-23): `name`, `max_tries` (None means
unlimited), `retry_delay` (seconds), `accept_on_exit_code` (a list, default
`[0]`), `retry_on_exit_code` (None means retry on any non-accepted code),
plus `on_error`. `on_error` — Modelled from the spec: the base class `Task`
(seesaw/task.py) is not part of the excerpt, and `handle_process_error`
reads `self.on_error` from it in its `elif` fallback; the spec treats
"exhausted retries ⇒ fail" as the intended contract, i.e. the attribute is
truthy, so it is carried here as a boolean field. -/
structure Config where
  name : String
  maxTries : Option Nat
  retryDelay : Nat
  acceptOnExitCode : List Int
  retryOnExitCode : Option (List Int)
  onError : Bool
deriving DecidableEq, Repr

/-- The per-unit-of-work item, as this task sees it: a human readable
description (`item.description()`), the mutable integer field
`item["tries"]`, and any other key/value state this task never touches
(carried so that frame properties are meaningful). -/
structure Item where
  description : String
  tries : Nat
  otherFields : List (String × Int)
deriving DecidableEq, Repr

/-- One externally visible call made by the task, in source order.
`logOutput s` is `item.log_output(s)`, `logError c` is
`item.log_error(self, c)`, `completeItem` / `failItem` / `startItem` are the
lifecycle callbacks, `processStart t` records a call to `self.process(item)`
with the item's `tries` equal to `t` at that moment, `scheduleRetryTimeout`
is the `IOLoop.add_timeout(retry_delay, process)` registration and
`schedulePollTimeout` the `add_timeout(250ms, wait_for_end)` registration. -/
inductive TaskEvent
  | startItem
  | logOutput (s : String)
  | logError (code : Int)
  | completeItem
  | failItem
  | processStart (tries : Nat)
  | scheduleRetryTimeout
  | schedulePollTimeout
deriving DecidableEq, Repr

/-- The `"Starting %s for %s\n"` line logged by `enqueue` (line 27). -/
def startingLine (cfg : Config) (desc : String) : String :=
  "Starting " ++ cfg.name ++ " for " ++ desc ++ "\n"

/-- The `"Finished %s for %s\n"` line logged by `handle_process_result`
(line 80). -/
def finishedLine (cfg : Config) (desc : String) : String :=
  "Finished " ++ cfg.name ++ " for " ++ desc ++ "\n"

/-- The `"Process %s returned exit code %d for %s\n"` line logged by
`handle_process_error` (line 86). -/
def errorLine (cfg : Config) (code : Int) (desc : String) : String :=
  "Process " ++ cfg.name ++ " returned exit code " ++ toString code ++
    " for " ++ desc ++ "\n"

/-- The `"Retrying %s for %s after %d seconds...\n"` line (line 90). -/
def retryingLine (cfg : Config) (desc : String) : String :=
  "Retrying " ++ cfg.name ++ " for " ++ desc ++ " after " ++
    toString cfg.retryDelay ++ " seconds...\n"

/-- The `"Failed %s for %s\n"` line (line 95). -/
def failedLine (cfg : Config) (desc : String) : String :=
  "Failed " ++ cfg.name ++ " for " ++ desc ++ "\n"

/-- `ExternalProcess.handle_process_result` (lines 79-81): log the finished
line, call `complete_item(item)`.  The item is returned unchanged. -/
def handle_process_result (cfg : Config) (_exitCode : Int) (item : Item) :
    Item × List TaskEvent :=
  (item, [TaskEvent.logOutput (finishedLine cfg item.description),
          TaskEvent.completeItem])

/-- The retry condition of `handle_process_error` (line 89):
`(self.max_tries == None or item["tries"] < self.max_tries) and
(self.retry_on_exit_code == None or exit_code in self.retry_on_exit_code)`,
evaluated with `tries` already incremented. -/
def retryPermitted (cfg : Config) (exitCode : Int) (tries : Nat) : Bool :=
  (match cfg.maxTries with
   | none => true
   | some m => tries < m) &&
  (match cfg.retryOnExitCode with
   | none => true
   | some codes => codes.contains exitCode)

/-- `ExternalProcess.handle_process_error` (lines 83-96): increment
`item["tries"]`, log the error line and `log_error`, then either schedule a
retry (log the retrying line and register the `retry_delay` timeout) or —
`elif self.on_error` — log the failed line and call `fail_item(item)`.
Returns the updated item, the events in call order, and whether a retry was
scheduled. -/
def handle_process_error (cfg : Config) (exitCode : Int) (item : Item) :
    Item × List TaskEvent × Bool :=
  let item' : Item := { item with tries := item.tries + 1 }
  let evs := [TaskEvent.logOutput (errorLine cfg exitCode item'.description),
              TaskEvent.logError exitCode]
  if retryPermitted cfg exitCode item'.tries then
    (item', evs ++ [TaskEvent.logOutput (retryingLine cfg item'.description),
                    TaskEvent.scheduleRetryTimeout], true)
  else if cfg.onError then
    (item', evs ++ [TaskEvent.logOutput (failedLine cfg item'.description),
                    TaskEvent.failItem], false)
  else
    (item', evs, false)

/-- The classification step of `wait_for_end` once `pipe.returncode` is
available (lines 67-71): a return code in `accept_on_exit_code` goes to
`handle_process_result`, any other to `handle_process_error`. -/
def classifyExit (cfg : Config) (exitCode : Int) (item : Item) :
    Item × List TaskEvent × Bool :=
  if cfg.acceptOnExitCode.contains exitCode then
    let r := handle_process_result cfg exitCode item
    (r.1, r.2, false)
  else
    handle_process_error cfg exitCode item

/-- `ExternalProcess.wait_for_end` (lines 62-77): poll the process; while no
return code is available yet, re-register itself on a 250 ms timeout.  The
`pending` argument is the number of polls that find the process still
running before the exit code `exitCode` becomes available. -/
def wait_for_end (cfg : Config) (item : Item) :
    Nat → Int → Item × List TaskEvent × Bool
  | 0, exitCode => classifyExit cfg exitCode item
  | pending + 1, exitCode =>
    let r := wait_for_end cfg item pending exitCode
    (r.1, TaskEvent.schedulePollTimeout :: r.2.1, r.2.2)

/-- One process run per attempt: the script lists, for each successive
process start, the number of pending `wait_for_end` polls and the exit code
the process eventually returns.  Each attempt is `self.process(item)` (the
`processStart` event) followed by the output pump, hang-up and
`wait_for_end`; when `handle_process_error` scheduled a retry the next
script entry is the re-started process.  `none` means the script was too
short to reach a terminal classification. -/
def runAttempts (cfg : Config) : Item → List (Nat × Int) →
    Option (Item × List TaskEvent)
  | _, [] => none
  | item, a :: rest =>
    let r := wait_for_end cfg item a.1 a.2
    if r.2.2 then
      (runAttempts cfg r.1 rest).map fun q =>
        (q.1, TaskEvent.processStart item.tries :: (r.2.1 ++ q.2))
    else
      some (r.1, TaskEvent.processStart item.tries :: r.2.1)

/-- `ExternalProcess.enqueue` (lines 25-29): `start_item(item)`, log the
starting line, set `item["tries"] = 1`, then `self.process(item)`; the rest
of the run is driven by the event loop as modelled in `runAttempts`. -/
def enqueue (cfg : Config) (item : Item) (script : List (Nat × Int)) :
    Option (Item × List TaskEvent) :=
  let item1 : Item := { item with tries := 1 }
  (runAttempts cfg item1 script).map fun r =>
    (r.1, TaskEvent.startItem ::
          TaskEvent.logOutput (startingLine cfg item.description) :: r.2)

/-- The pty master side as `on_subprocess_stdout` sees it: the file object
`m = os.fdopen(master_fd)` with its `closed` flag, plus the bytes currently
readable from it. -/
structure MasterPipe where
  closed : Bool
  pending : String
deriving DecidableEq, Repr

/-- One externally visible action of `on_subprocess_stdout`: logging read
data, `m.close()`, `ioloop.remove_handler(fd)`, or handing control to
`wait_for_end`. -/
inductive IOAct
  | logOutput (s : String)
  | closeMaster
  | removeHandler
  | waitForEnd
deriving DecidableEq, Repr

/-- tornado's `IOLoop._EPOLLIN` bit (0x001). -/
def EPOLLIN : Nat := 1

/-- tornado's `IOLoop._EPOLLHUP` bit (0x010). -/
def EPOLLHUP : Nat := 16

/-- `ExternalProcess.on_subprocess_stdout` (lines 57-65): if the file is not
closed and the readable bit is set, read the available data and log it; then,
independently, if the hang-up bit is set, close the file, deregister the
handler, and start `wait_for_end`.  Returns the pipe state after the call
together with the actions in call order. -/
def on_subprocess_stdout (m : MasterPipe) (events : Nat) :
    MasterPipe × List IOAct :=
  let step1 : MasterPipe × List IOAct :=
    if !m.closed && (events &&& EPOLLIN) != 0 then
      ({ m with pending := "" }, [IOAct.logOutput m.pending])
    else
      (m, [])
  if events &&& EPOLLHUP > 0 then
    ({ step1.1 with closed := true },
     step1.2 ++ [IOAct.closeMaster, IOAct.removeHandler, IOAct.waitForEnd])
  else
    step1

/-- The `tries` values recorded at each process start, in order. -/
def startTries : List TaskEvent → List Nat
  | [] => []
  | TaskEvent.processStart t :: rest => t :: startTries rest
  | _ :: rest => startTries rest

/-- Terminal lifecycle callbacks: `complete_item` or `fail_item`. -/
def isTerminal : TaskEvent → Bool
  | TaskEvent.completeItem => true
  | TaskEvent.failItem => true
  | _ => false

/-- Number of terminal outcomes reported in a trace. -/
def terminalCount (evs : List TaskEvent) : Nat :=
  (evs.filter isTerminal).length

/-- Splitting a character list on `'/'`, with the semantics of Python's
`str.split('/')` (empty pieces are kept, so `"a/"` gives `["a", ""]`).
Paths are handled as character lists so that the whole path layer stays
kernel-computable. -/
def splitSlash : List Char → List (List Char)
  | [] => [[]]
  | c :: rest =>
    match splitSlash rest with
    | [] => [[c]]
    | cur :: more =>
      if c = '/' then [] :: cur :: more
      else (c :: cur) :: more

/-- The component loop of Python's `posixpath.normpath`: empty and `"."`
components are dropped; a `".."` component pops the last kept component,
except at the start of a relative path or after a kept `".."`, where it is
kept, and at the root of an absolute path, where it is dropped. -/
def normLoop (isAbs : Bool) : List (List Char) → List (List Char) →
    List (List Char)
  | acc, [] => acc
  | acc, c :: rest =>
    if c = [] || c = ['.'] then
      normLoop isAbs acc rest
    else if c != ['.', '.'] || (!isAbs && acc.isEmpty) ||
            (!acc.isEmpty && acc.getLast? == some ['.', '.']) then
      normLoop isAbs (acc ++ [c]) rest
    else if !acc.isEmpty then
      normLoop isAbs acc.dropLast rest
    else
      normLoop isAbs acc rest

/-- Number of leading slashes `posixpath.normpath` preserves: two for a
path starting with exactly two slashes, one for any other absolute path. -/
def countInitialSlashes : List Char → Nat
  | '/' :: '/' :: '/' :: _ => 1
  | '/' :: '/' :: _ => 2
  | '/' :: _ => 1
  | _ => 0

/-- Joining path components with single slashes. -/
def joinComps : List (List Char) → List Char
  | [] => []
  | [x] => x
  | x :: xs => x ++ '/' :: joinComps xs

/-- Python's `posixpath.normpath` on character lists: collapse separators
and `"."`, resolve `".."`, preserving one (or exactly two) leading
slashes; the empty path and an empty result both give `"."`. -/
def normpathChars (l : List Char) : List Char :=
  if l = [] then ['.'] else
  let k := countInitialSlashes l
  let comps := normLoop (k > 0) [] (splitSlash l)
  let res := List.replicate k '/' ++ joinComps comps
  if res = [] then ['.'] else res

/-- Python's `posixpath.join` for two arguments, on character lists. -/
def joinPathChars (a b : List Char) : List Char :=
  match b with
  | '/' :: _ => b
  | _ => if a = [] || a.getLast? == some '/' then a ++ b else a ++ '/' :: b

/-- Python's `posixpath.abspath` with the working directory `cwd` explicit:
a relative path is joined onto `cwd`, then normalized. -/
def abspathChars (cwd : List Char) (l : List Char) : List Char :=
  normpathChars (match l with
    | '/' :: _ => l
    | _ => joinPathChars cwd l)

/-- Length of the common prefix of two component lists, as
`os.path.commonprefix` computes it on sequences. -/
def commonPrefixLen : List (List Char) → List (List Char) → Nat
  | a :: as, b :: bs => if a = b then commonPrefixLen as bs + 1 else 0
  | _, _ => 0

/-- Python's `posixpath.relpath(path, start)` with the working directory
explicit: both arguments are made absolute, split into non-empty
components, and the result is `".."` for each remaining start component
followed by the remaining path components. -/
def relpathChars (cwd path start : List Char) : List Char :=
  let startList := (splitSlash (abspathChars cwd start)).filter
    (fun c => c ≠ [])
  let pathList := (splitSlash (abspathChars cwd path)).filter
    (fun c => c ≠ [])
  let i := commonPrefixLen startList pathList
  let relList := List.replicate (startList.length - i) ['.', '.'] ++
    pathList.drop i
  if relList.isEmpty then ['.'] else joinComps relList

/-- `os.path.relpath` on strings, with the working directory explicit. -/
def relpath (cwd path start : String) : String :=
  String.mk (relpathChars cwd.data path.data start.data)

/-- `RsyncUpload.stdin_data` (lines 124-125):
`"".join(["%s\n" % os.path.relpath(realize(f, item), self.target_source_path)
for f in self.files])`.  The files are taken already realized (`realize` is
an external collaborator assumed to be a pure template-resolution function),
and the working directory of the task is explicit. -/
def stdin_data (cwd : String) (files : List String)
    (target_source_path : String) : String :=
  String.join (files.map fun f =>
    relpath cwd f target_source_path ++ "\n")

section Lemmas

lemma startTries_append (l1 l2 : List TaskEvent) :
    startTries (l1 ++ l2) = startTries l1 ++ startTries l2 := by
  induction l1 with
  | nil => rfl
  | cons a rest ih =>
    cases a <;> simp [startTries, ih]

lemma terminalCount_append (l1 l2 : List TaskEvent) :
    terminalCount (l1 ++ l2) = terminalCount l1 + terminalCount l2 := by
  simp [terminalCount, List.filter_append]

lemma terminalCount_classifyExit (cfg : Config) (e : Int) (item : Item)
    (ho : cfg.onError = true) :
    terminalCount (classifyExit cfg e item).2.1 =
      (if (classifyExit cfg e item).2.2 then 0 else 1) := by
  simp only [classifyExit, handle_process_result, handle_process_error, ho]
  split
  · rfl
  · split <;> simp [terminalCount, isTerminal]

lemma wait_for_end_events_flag (cfg : Config) (item : Item) (p : Nat) (e : Int) :
    (wait_for_end cfg item p e).2.1 =
      List.replicate p TaskEvent.schedulePollTimeout ++
        (classifyExit cfg e item).2.1 ∧
    (wait_for_end cfg item p e).2.2 = (classifyExit cfg e item).2.2 ∧
    (wait_for_end cfg item p e).1 = (classifyExit cfg e item).1 := by
  induction p with
  | zero => simp [wait_for_end]
  | succ n ih =>
    simp [wait_for_end, ih, List.replicate_succ]

lemma terminalCount_wait_for_end (cfg : Config) (item : Item) (p : Nat)
    (e : Int) (ho : cfg.onError = true) :
    terminalCount (wait_for_end cfg item p e).2.1 =
      (if (wait_for_end cfg item p e).2.2 then 0 else 1) := by
  obtain ⟨h1, h2, _⟩ := wait_for_end_events_flag cfg item p e
  rw [h1, h2, terminalCount_append, terminalCount_classifyExit cfg e item ho]
  have : terminalCount (List.replicate p TaskEvent.schedulePollTimeout) = 0 := by
    simp [terminalCount, List.filter_eq_nil_iff, List.mem_replicate, isTerminal]
  omega

lemma startTries_classifyExit (cfg : Config) (e : Int) (item : Item) :
    startTries (classifyExit cfg e item).2.1 = [] := by
  simp only [classifyExit, handle_process_result, handle_process_error]
  split
  · rfl
  · split
    · rfl
    · split <;> rfl

lemma startTries_replicate_poll (p : Nat) :
    startTries (List.replicate p TaskEvent.schedulePollTimeout) = [] := by
  induction p with
  | zero => rfl
  | succ n ih => simpa [List.replicate_succ, startTries] using ih

lemma startTries_wait_for_end (cfg : Config) (item : Item) (p : Nat) (e : Int) :
    startTries (wait_for_end cfg item p e).2.1 = [] := by
  obtain ⟨h1, _, _⟩ := wait_for_end_events_flag cfg item p e
  rw [h1, startTries_append, startTries_classifyExit, startTries_replicate_poll]
  rfl

lemma handle_process_error_item (cfg : Config) (e : Int) (item : Item) :
    (handle_process_error cfg e item).1 = { item with tries := item.tries + 1 } := by
  simp only [handle_process_error]
  split
  · rfl
  · split <;> rfl

lemma classifyExit_retry_tries (cfg : Config) (e : Int) (item : Item)
    (h : (classifyExit cfg e item).2.2 = true) :
    (classifyExit cfg e item).1.tries = item.tries + 1 := by
  by_cases hacc : e ∈ cfg.acceptOnExitCode
  · exfalso
    simp [classifyExit, hacc, handle_process_result] at h
  · have heq : classifyExit cfg e item = handle_process_error cfg e item := by
      simp [classifyExit, hacc]
    rw [heq, handle_process_error_item]

lemma wait_for_end_retry_tries (cfg : Config) (item : Item) (p : Nat) (e : Int)
    (h : (wait_for_end cfg item p e).2.2 = true) :
    (wait_for_end cfg item p e).1.tries = item.tries + 1 := by
  obtain ⟨_, h2, h3⟩ := wait_for_end_events_flag cfg item p e
  rw [h3]
  exact classifyExit_retry_tries cfg e item (h2 ▸ h)

lemma runAttempts_cons (cfg : Config) (item : Item) (a : Nat × Int)
    (rest : List (Nat × Int)) :
    runAttempts cfg item (a :: rest) =
      (if (wait_for_end cfg item a.1 a.2).2.2 then
        (runAttempts cfg (wait_for_end cfg item a.1 a.2).1 rest).map fun q =>
          (q.1, TaskEvent.processStart item.tries ::
                ((wait_for_end cfg item a.1 a.2).2.1 ++ q.2))
      else
        some ((wait_for_end cfg item a.1 a.2).1,
              TaskEvent.processStart item.tries ::
                (wait_for_end cfg item a.1 a.2).2.1)) := by
  rfl

lemma runAttempts_terminalCount (cfg : Config) (ho : cfg.onError = true) :
    ∀ (script : List (Nat × Int)) (item i : Item) (evs : List TaskEvent),
      runAttempts cfg item script = some (i, evs) → terminalCount evs = 1 := by
  intro script
  induction script with
  | nil => intro item i evs h; simp [runAttempts] at h
  | cons a rest ih =>
    intro item i evs h
    rw [runAttempts_cons] at h
    by_cases hflag : (wait_for_end cfg item a.1 a.2).2.2 = true
    · rw [if_pos hflag, Option.map_eq_some'] at h
      obtain ⟨q, hq, hpair⟩ := h
      have hq2 := ih _ q.1 q.2 (by rw [hq])
      have hevs : evs = TaskEvent.processStart item.tries ::
          ((wait_for_end cfg item a.1 a.2).2.1 ++ q.2) := by
        have := congrArg Prod.snd hpair
        simpa using this.symm
      have hwfe0 : terminalCount (wait_for_end cfg item a.1 a.2).2.1 = 0 := by
        have hw := terminalCount_wait_for_end cfg item a.1 a.2 ho
        rw [hflag] at hw
        simpa using hw
      have hsplit : terminalCount (TaskEvent.processStart item.tries ::
          ((wait_for_end cfg item a.1 a.2).2.1 ++ q.2)) =
          terminalCount (wait_for_end cfg item a.1 a.2).2.1 + terminalCount q.2 := by
        simp [terminalCount, List.filter_append, List.filter_cons, isTerminal]
      rw [hevs, hsplit, hwfe0, hq2]
    · rw [if_neg hflag] at h
      have hb : (wait_for_end cfg item a.1 a.2).2.2 = false := by
        revert hflag
        cases (wait_for_end cfg item a.1 a.2).2.2 <;> simp
      obtain ⟨hi, hevs⟩ := Prod.mk.injEq .. ▸ (Option.some.injEq .. ▸ h)
      have hwfe := terminalCount_wait_for_end cfg item a.1 a.2 ho
      rw [hb] at hwfe
      rw [← hevs]
      simpa [terminalCount, isTerminal] using hwfe

lemma runAttempts_startTries (cfg : Config) :
    ∀ (script : List (Nat × Int)) (item i : Item) (evs : List TaskEvent),
      runAttempts cfg item script = some (i, evs) →
      ∃ n, startTries evs = List.range' item.tries n := by
  intro script
  induction script with
  | nil => intro item i evs h; simp [runAttempts] at h
  | cons a rest ih =>
    intro item i evs h
    rw [runAttempts_cons] at h
    by_cases hflag : (wait_for_end cfg item a.1 a.2).2.2 = true
    · rw [if_pos hflag, Option.map_eq_some'] at h
      obtain ⟨q, hq, hpair⟩ := h
      have hevs : evs = TaskEvent.processStart item.tries ::
          ((wait_for_end cfg item a.1 a.2).2.1 ++ q.2) := by
        have := congrArg Prod.snd hpair
        simpa using this.symm
      obtain ⟨n, hn⟩ := ih _ q.1 q.2 (by rw [hq])
      have htries := wait_for_end_retry_tries cfg item a.1 a.2 hflag
      rw [htries] at hn
      refine ⟨n + 1, ?_⟩
      have hred : startTries (TaskEvent.processStart item.tries ::
          ((wait_for_end cfg item a.1 a.2).2.1 ++ q.2)) =
          item.tries :: (startTries (wait_for_end cfg item a.1 a.2).2.1 ++
            startTries q.2) := by
        simp [startTries, startTries_append]
      rw [hevs, hred, startTries_wait_for_end, hn]
      simp [List.range'_succ]
    · rw [if_neg hflag] at h
      have hevs : evs = TaskEvent.processStart item.tries ::
          (wait_for_end cfg item a.1 a.2).2.1 := by
        have := congrArg (fun o => o.map Prod.snd) h
        simpa using this.symm
      refine ⟨1, ?_⟩
      rw [hevs]
      have hred : startTries (TaskEvent.processStart item.tries ::
          (wait_for_end cfg item a.1 a.2).2.1) =
          item.tries :: startTries (wait_for_end cfg item a.1 a.2).2.1 := by
        simp [startTries]
      rw [hred, startTries_wait_for_end]
      simp [List.range'_succ]

lemma classifyExit_not_accepted (cfg : Config) (e : Int) (item : Item)
    (ha : e ∉ cfg.acceptOnExitCode) :
    classifyExit cfg e item = handle_process_error cfg e item := by
  simp [classifyExit, ha]

lemma runAttempts_all_fail (cfg : Config) (M : Nat) (e : Int)
    (hM : cfg.maxTries = some M) (hr : cfg.retryOnExitCode = none)
    (ho : cfg.onError = true) (ha : e ∉ cfg.acceptOnExitCode) :
    ∀ (k : Nat) (item : Item), max (M - item.tries) 1 ≤ k →
      ∃ i evs, runAttempts cfg item (List.replicate k (0, e)) = some (i, evs) ∧
        i.tries = max M (item.tries + 1) ∧
        (startTries evs).length = max (M - item.tries) 1 ∧
        evs.getLast? = some TaskEvent.failItem := by
  intro k
  induction k with
  | zero => intro item hk; omega
  | succ n ih =>
    intro item hk
    by_cases hlt : item.tries + 1 < M
    · have hperm : retryPermitted cfg e (item.tries + 1) = true := by
        simp [retryPermitted, hM, hr, hlt]
      have hfull : wait_for_end cfg item 0 e =
          ({ item with tries := item.tries + 1 },
           [TaskEvent.logOutput (errorLine cfg e item.description),
            TaskEvent.logError e,
            TaskEvent.logOutput (retryingLine cfg item.description),
            TaskEvent.scheduleRetryTimeout], true) := by
        show classifyExit cfg e item = _
        rw [classifyExit_not_accepted cfg e item ha]
        simp [handle_process_error, hperm]
      have hbound : max (M - (item.tries + 1)) 1 ≤ n := by omega
      obtain ⟨i, evs2, hrun2, htr2, hlen2, hlast2⟩ :=
        ih { item with tries := item.tries + 1 } hbound
      refine ⟨i, TaskEvent.processStart item.tries ::
        ((wait_for_end cfg item 0 e).2.1 ++ evs2), ?_, ?_, ?_, ?_⟩
      · rw [List.replicate_succ, runAttempts_cons]
        rw [if_pos (by rw [hfull])]
        have h1 : (wait_for_end cfg item (0, e).1 (0, e).2).1 =
            { item with tries := item.tries + 1 } := by rw [hfull]
        rw [h1, hrun2]
        rfl
      · rw [htr2]
        simp only [Item.tries]
        omega
      · have hred : startTries (TaskEvent.processStart item.tries ::
            ((wait_for_end cfg item 0 e).2.1 ++ evs2)) =
            item.tries :: (startTries (wait_for_end cfg item 0 e).2.1 ++
              startTries evs2) := by
          simp [startTries, startTries_append]
        rw [hred, startTries_wait_for_end]
        simp only [List.nil_append, List.length_cons]
        have : (startTries evs2).length = max (M - (item.tries + 1)) 1 := hlen2
        omega
      · have hne : evs2 ≠ [] := by
          intro hcon
          rw [hcon] at hlast2
          simp at hlast2
        rw [show TaskEvent.processStart item.tries ::
            ((wait_for_end cfg item 0 e).2.1 ++ evs2) =
            (TaskEvent.processStart item.tries ::
              (wait_for_end cfg item 0 e).2.1) ++ evs2 from by simp]
        rw [List.getLast?_append_of_ne_nil _ hne]
        exact hlast2
    · have hperm : retryPermitted cfg e (item.tries + 1) = false := by
        simp [retryPermitted, hM, hr, hlt]
      have hfull : wait_for_end cfg item 0 e =
          ({ item with tries := item.tries + 1 },
           [TaskEvent.logOutput (errorLine cfg e item.description),
            TaskEvent.logError e,
            TaskEvent.logOutput (failedLine cfg item.description),
            TaskEvent.failItem], false) := by
        show classifyExit cfg e item = _
        rw [classifyExit_not_accepted cfg e item ha]
        simp [handle_process_error, hperm, ho]
      refine ⟨{ item with tries := item.tries + 1 },
        TaskEvent.processStart item.tries ::
          [TaskEvent.logOutput (errorLine cfg e item.description),
           TaskEvent.logError e,
           TaskEvent.logOutput (failedLine cfg item.description),
           TaskEvent.failItem], ?_, ?_, ?_, ?_⟩
      · rw [List.replicate_succ, runAttempts_cons]
        rw [if_neg (by rw [hfull]; simp)]
        rw [show (wait_for_end cfg item (0, e).1 (0, e).2).1 =
            { item with tries := item.tries + 1 } from by rw [hfull]]
        rw [show (wait_for_end cfg item (0, e).1 (0, e).2).2.1 =
            [TaskEvent.logOutput (errorLine cfg e item.description),
             TaskEvent.logError e,
             TaskEvent.logOutput (failedLine cfg item.description),
             TaskEvent.failItem] from by rw [hfull]]
      · simp only [Item.tries]
        omega
      · have : M - item.tries ≤ 1 := by omega
        simp [startTries]
        omega
      · rfl

lemma handle_process_error_empty_retry (cfg : Config) (e : Int) (item : Item)
    (hr : cfg.retryOnExitCode = some []) :
    (handle_process_error cfg e item).2.2 = false ∧
    TaskEvent.scheduleRetryTimeout ∉ (handle_process_error cfg e item).2.1 := by
  have hperm : retryPermitted cfg e (item.tries + 1) = false := by
    simp [retryPermitted, hr]
  simp only [handle_process_error, hperm, Bool.false_eq_true, if_false]
  split <;> simp

lemma wait_for_end_empty_retry (cfg : Config) (item : Item) (p : Nat) (e : Int)
    (hr : cfg.retryOnExitCode = some []) :
    (wait_for_end cfg item p e).2.2 = false ∧
    TaskEvent.scheduleRetryTimeout ∉ (wait_for_end cfg item p e).2.1 := by
  obtain ⟨h1, h2, _⟩ := wait_for_end_events_flag cfg item p e
  rw [h1, h2]
  by_cases hacc : e ∈ cfg.acceptOnExitCode
  · have hc : classifyExit cfg e item =
        (item, [TaskEvent.logOutput (finishedLine cfg item.description),
                TaskEvent.completeItem], false) := by
      simp [classifyExit, hacc, handle_process_result]
    rw [hc]
    simp [List.mem_replicate]
  · rw [classifyExit_not_accepted cfg e item hacc]
    obtain ⟨hf, hm⟩ := handle_process_error_empty_retry cfg e item hr
    refine ⟨hf, ?_⟩
    simp only [List.mem_append, List.mem_replicate]
    rintro (⟨-, hcon⟩ | hcon)
    · exact absurd hcon (by simp)
    · exact hm hcon

end Lemmas

section ClaimTheorems

/-- Claim C1 (corrected).  What holds on the code: (1) in every completed
run, the `tries` values at the successive process starts are exactly
1, 2, 3, …, so `tries` does equal the number of starts attempted so far at
the moment of each start; (2) but `handle_process_error` increments
`tries` on every non-accepted exit code before the retry decision, so with
`retry_on_exit_code = null` and an always-failing exit code the task
performs `max (max_tries - 1) 1` attempts (not `max_tries`), ends with
`fail_item`, and the final `tries` is `max max_tries 2`, one more than the
number of attempts — after the Nth attempt is handled, `tries` is N + 1,
not N. -/
theorem c1_tries_invariant_amended :
    (∀ (cfg : Config) (item : Item) (script : List (Nat × Int))
        (i : Item) (evs : List TaskEvent),
        enqueue cfg item script = some (i, evs) →
        startTries evs = List.range' 1 (startTries evs).length) ∧
    (∀ (cfg : Config) (M : Nat) (e : Int) (k : Nat) (item : Item),
        cfg.maxTries = some M → cfg.retryOnExitCode = none →
        cfg.onError = true → e ∉ cfg.acceptOnExitCode →
        max (M - 1) 1 ≤ k →
        ∃ i evs, enqueue cfg item (List.replicate k (0, e)) = some (i, evs) ∧
          i.tries = max M 2 ∧
          (startTries evs).length = max (M - 1) 1 ∧
          evs.getLast? = some TaskEvent.failItem) := by
  constructor
  · intro cfg item script i evs h
    rw [enqueue, Option.map_eq_some'] at h
    obtain ⟨r, hr, hpair⟩ := h
    have hevs : evs = TaskEvent.startItem ::
        TaskEvent.logOutput (startingLine cfg item.description) :: r.2 := by
      have := congrArg Prod.snd hpair
      simpa using this.symm
    obtain ⟨n, hn⟩ := runAttempts_startTries cfg script _ r.1 r.2 (by rw [hr])
    have hred : startTries evs = startTries r.2 := by
      rw [hevs]
      simp [startTries]
    rw [hred, hn, List.length_range']
  · intro cfg M e k item hM hrr ho ha hk
    obtain ⟨i, evs2, hrun, htr, hlen, hlast⟩ :=
      runAttempts_all_fail cfg M e hM hrr ho ha k { item with tries := 1 }
        (by simpa using hk)
    refine ⟨i, TaskEvent.startItem ::
      TaskEvent.logOutput (startingLine cfg item.description) :: evs2,
      ?_, ?_, ?_, ?_⟩
    · rw [enqueue, hrun]
      rfl
    · simpa using htr
    · have hred : startTries (TaskEvent.startItem ::
          TaskEvent.logOutput (startingLine cfg item.description) :: evs2) =
          startTries evs2 := by
        simp [startTries]
      rw [hred]
      simpa using hlen
    · have hne : evs2 ≠ [] := by
        intro hcon
        rw [hcon] at hlast
        simp at hlast
      rw [show (TaskEvent.startItem ::
          TaskEvent.logOutput (startingLine cfg item.description) :: evs2) =
          [TaskEvent.startItem,
           TaskEvent.logOutput (startingLine cfg item.description)] ++ evs2
        from rfl]
      rw [List.getLast?_append_of_ne_nil _ hne]
      exact hlast

/-- Witness for C1's amended theorem: `max_tries = 3`, exit code 1 always,
two attempts suffice; the run fails with `tries = 3` after 2 starts. -/
theorem c1_witness :
    ∃ i evs, enqueue ⟨"W", some 3, 30, [0], none, true⟩ ⟨"I", 0, []⟩
        (List.replicate 2 (0, 1)) = some (i, evs) ∧
      i.tries = max 3 2 ∧ (startTries evs).length = max (3 - 1) 1 ∧
      evs.getLast? = some TaskEvent.failItem :=
  c1_tries_invariant_amended.2 ⟨"W", some 3, 30, [0], none, true⟩ 3 1 2
    ⟨"I", 0, []⟩ rfl rfl rfl (by decide) (by decide)

/-- Counterexample to claim C1 as stated: with the default `max_tries = 1`
and a single failing attempt, the final `tries` is 2 while only 1 process
start was attempted, so `tries` does not "thereafter equal the number of
process starts attempted so far", and the task fails with `tries = 2`, not
with `tries == max_tries = 1`. -/
theorem c1_counterexample :
    (enqueue ⟨"W", some 1, 30, [0], none, true⟩ ⟨"I", 0, []⟩ [(0, 5)]).map
        (fun r => (r.1.tries, (startTries r.2).length)) = some (2, 1) ∧
      (2 : Nat) ≠ 1 :=
  ⟨rfl, by decide⟩

/-- Counterexample to claim C2 as stated: with `max_tries = 3`,
`accept_on_exit_code = [0]`, `retry_on_exit_code = null` and the process
exiting 1, 1, 0 on successive attempts, `complete_item` is never called —
after the second exit code 1 the check `item["tries"] < self.max_tries`
compares the already-incremented value 3 against 3 and fails, so the task
gives up before the third attempt. -/
theorem c2_counterexample :
    (enqueue ⟨"WgetDownload", some 3, 30, [0], none, true⟩ ⟨"Item", 0, []⟩
        [(0, 1), (0, 1), (0, 0)]).map
      (fun r => (r.2.contains TaskEvent.completeItem, r.1.tries)) =
      some (false, 3) := by
  rfl

/-- Claim C2 (corrected).  On the code, with `max_tries = 3`,
`accept_on_exit_code = [0]`, `retry_on_exit_code = null` and the process
exiting 1, 1, 0 on successive attempts, the final outcome is Failed
(`fail_item` is called, `complete_item` never is), `item["tries"]` equals 3
at that point, only two process starts occur, and the third exit code is
never observed.  The complete event trace is proved below. -/
theorem c2_corrected_failed_after_two :
    enqueue ⟨"WgetDownload", some 3, 30, [0], none, true⟩ ⟨"Item", 0, []⟩
        [(0, 1), (0, 1), (0, 0)] =
      some (⟨"Item", 3, []⟩,
        [TaskEvent.startItem,
         TaskEvent.logOutput "Starting WgetDownload for Item\n",
         TaskEvent.processStart 1,
         TaskEvent.logOutput "Process WgetDownload returned exit code 1 for Item\n",
         TaskEvent.logError 1,
         TaskEvent.logOutput "Retrying WgetDownload for Item after 30 seconds...\n",
         TaskEvent.scheduleRetryTimeout,
         TaskEvent.processStart 2,
         TaskEvent.logOutput "Process WgetDownload returned exit code 1 for Item\n",
         TaskEvent.logError 1,
         TaskEvent.logOutput "Failed WgetDownload for Item\n",
         TaskEvent.failItem]) := by
  rfl

/-- Claim C3: in every completed run, exactly one terminal outcome
(`complete_item` or `fail_item`) is reported for the item, and never more
than once.  The fallback `Task.on_error` attribute (modelled from the spec
as a boolean) must be truthy for the failure to be reported at all. -/
theorem c3_exactly_one_terminal_outcome (cfg : Config) (item : Item)
    (script : List (Nat × Int)) (i : Item) (evs : List TaskEvent)
    (ho : cfg.onError = true) (h : enqueue cfg item script = some (i, evs)) :
    terminalCount evs = 1 := by
  rw [enqueue, Option.map_eq_some'] at h
  obtain ⟨r, hr, hpair⟩ := h
  have hevs : evs = TaskEvent.startItem ::
      TaskEvent.logOutput (startingLine cfg item.description) :: r.2 := by
    have := congrArg Prod.snd hpair
    simpa using this.symm
  have hred : terminalCount evs = terminalCount r.2 := by
    rw [hevs]
    simp [terminalCount, List.filter_cons, isTerminal]
  rw [hred]
  exact runAttempts_terminalCount cfg ho script _ r.1 r.2 (by rw [hr])

/-- Witness for C3 at a concrete accepted run. -/
theorem c3_witness :
    terminalCount [TaskEvent.startItem,
      TaskEvent.logOutput "Starting T for I\n",
      TaskEvent.processStart 1,
      TaskEvent.logOutput "Finished T for I\n",
      TaskEvent.completeItem] = 1 :=
  c3_exactly_one_terminal_outcome ⟨"T", some 1, 30, [0], none, true⟩
    ⟨"I", 0, []⟩ [(0, 0)] ⟨"I", 1, []⟩ _ rfl rfl

/-- Claim C4: whenever the resolved exit code is in `accept_on_exit_code`,
`wait_for_end` (after any number of still-running polls) logs the finished
line and calls `complete_item`, exactly one terminal outcome is produced,
and neither a retry timer nor `fail_item` ever appears. -/
theorem c4_accept_completes_no_retry (cfg : Config) (item : Item) (p : Nat)
    (e : Int) (h : e ∈ cfg.acceptOnExitCode) :
    wait_for_end cfg item p e =
      (item, List.replicate p TaskEvent.schedulePollTimeout ++
        [TaskEvent.logOutput (finishedLine cfg item.description),
         TaskEvent.completeItem], false) ∧
    terminalCount (wait_for_end cfg item p e).2.1 = 1 ∧
    TaskEvent.scheduleRetryTimeout ∉ (wait_for_end cfg item p e).2.1 ∧
    TaskEvent.failItem ∉ (wait_for_end cfg item p e).2.1 := by
  have hc : classifyExit cfg e item =
      (item, [TaskEvent.logOutput (finishedLine cfg item.description),
              TaskEvent.completeItem], false) := by
    simp [classifyExit, h, handle_process_result]
  obtain ⟨h1, h2, h3⟩ := wait_for_end_events_flag cfg item p e
  have hfull : wait_for_end cfg item p e =
      (item, List.replicate p TaskEvent.schedulePollTimeout ++
        [TaskEvent.logOutput (finishedLine cfg item.description),
         TaskEvent.completeItem], false) := by
    rw [show wait_for_end cfg item p e = ((wait_for_end cfg item p e).1,
        (wait_for_end cfg item p e).2.1, (wait_for_end cfg item p e).2.2)
      from rfl]
    rw [h1, h2, h3, hc]
  refine ⟨hfull, ?_, ?_, ?_⟩
  · rw [hfull]
    simp [terminalCount, List.filter_append, List.filter_cons, isTerminal,
      List.filter_eq_nil_iff, List.mem_replicate]
  · rw [hfull]
    simp [List.mem_append, List.mem_replicate]
  · rw [hfull]
    simp [List.mem_append, List.mem_replicate]

/-- Witness for C4: exit code 0 with `accept_on_exit_code = [0]` and one
still-running poll. -/
theorem c4_witness :
    wait_for_end ⟨"T", some 1, 30, [0], none, true⟩ ⟨"I", 0, []⟩ 1 0 =
      (⟨"I", 0, []⟩, List.replicate 1 TaskEvent.schedulePollTimeout ++
        [TaskEvent.logOutput
          (finishedLine ⟨"T", some 1, 30, [0], none, true⟩ "I"),
         TaskEvent.completeItem], false) ∧
    terminalCount (wait_for_end ⟨"T", some 1, 30, [0], none, true⟩
      ⟨"I", 0, []⟩ 1 0).2.1 = 1 ∧
    TaskEvent.scheduleRetryTimeout ∉ (wait_for_end
      ⟨"T", some 1, 30, [0], none, true⟩ ⟨"I", 0, []⟩ 1 0).2.1 ∧
    TaskEvent.failItem ∉ (wait_for_end
      ⟨"T", some 1, 30, [0], none, true⟩ ⟨"I", 0, []⟩ 1 0).2.1 :=
  c4_accept_completes_no_retry ⟨"T", some 1, 30, [0], none, true⟩
    ⟨"I", 0, []⟩ 1 0 (by decide)

/-- Claim C5: if `retry_on_exit_code` is configured as the empty set, no
retry timer is ever scheduled in any completed run, regardless of
`max_tries` and of the exit codes, including the first failing one. -/
theorem c5_empty_retry_set_never_retries (cfg : Config) (item : Item)
    (script : List (Nat × Int)) (i : Item) (evs : List TaskEvent)
    (hr : cfg.retryOnExitCode = some [])
    (h : enqueue cfg item script = some (i, evs)) :
    TaskEvent.scheduleRetryTimeout ∉ evs := by
  cases script with
  | nil => simp [enqueue, runAttempts] at h
  | cons a rest =>
    rw [enqueue, Option.map_eq_some'] at h
    obtain ⟨r, hrun, hpair⟩ := h
    have hevs : evs = TaskEvent.startItem ::
        TaskEvent.logOutput (startingLine cfg item.description) :: r.2 := by
      have := congrArg Prod.snd hpair
      simpa using this.symm
    obtain ⟨hflag, hmem⟩ :=
      wait_for_end_empty_retry cfg { item with tries := 1 } a.1 a.2 hr
    rw [runAttempts_cons, hflag] at hrun
    simp only [Bool.false_eq_true, if_false] at hrun
    have hr2 : r.2 = TaskEvent.processStart 1 ::
        (wait_for_end cfg { item with tries := 1 } a.1 a.2).2.1 := by
      have := congrArg (fun o => o.map Prod.snd) hrun
      simpa using this.symm
    rw [hevs, hr2]
    intro hcon
    simp only [List.mem_cons] at hcon
    rcases hcon with hcon | hcon | hcon | hcon
    · simp at hcon
    · simp at hcon
    · simp at hcon
    · exact hmem hcon

/-- Witness for C5: `retry_on_exit_code = []`, `max_tries = 5`, the first
attempt fails with exit code 1 and no retry is scheduled. -/
theorem c5_witness :
    TaskEvent.scheduleRetryTimeout ∉
      [TaskEvent.startItem,
       TaskEvent.logOutput "Starting T for I\n",
       TaskEvent.processStart 1,
       TaskEvent.logOutput "Process T returned exit code 1 for I\n",
       TaskEvent.logError 1,
       TaskEvent.logOutput "Failed T for I\n",
       TaskEvent.failItem] :=
  c5_empty_retry_set_never_retries ⟨"T", some 5, 30, [0], some [], true⟩
    ⟨"I", 0, []⟩ [(0, 1)] ⟨"I", 2, []⟩ _ rfl rfl

/-- Claim C6: when the exit code is not accepted and retry is not permitted
(budget exhausted or code outside a configured retry set), the task logs the
error, logs the failure line and reports the item failed via `fail_item`.
`Task.on_error` is modelled from the spec as truthy (the base class is not
part of the excerpt; the spec fixes "exhausted retries ⇒ fail" as the
contract). -/
theorem c6_not_permitted_fails (cfg : Config) (e : Int) (item : Item)
    (ho : cfg.onError = true) (ha : e ∉ cfg.acceptOnExitCode)
    (hp : retryPermitted cfg e (item.tries + 1) = false) :
    classifyExit cfg e item =
      ({ item with tries := item.tries + 1 },
       [TaskEvent.logOutput (errorLine cfg e item.description),
        TaskEvent.logError e,
        TaskEvent.logOutput (failedLine cfg item.description),
        TaskEvent.failItem], false) := by
  rw [classifyExit_not_accepted cfg e item ha]
  simp [handle_process_error, hp, ho]

/-- Witness for C6: default `max_tries = 1`, exit code 7 is not accepted
and the retry budget is already exhausted after the increment. -/
theorem c6_witness :
    classifyExit ⟨"T", some 1, 30, [0], none, true⟩ 7 ⟨"I", 0, []⟩ =
      (⟨"I", 1, []⟩,
       [TaskEvent.logOutput (errorLine ⟨"T", some 1, 30, [0], none, true⟩ 7 "I"),
        TaskEvent.logError 7,
        TaskEvent.logOutput (failedLine ⟨"T", some 1, 30, [0], none, true⟩ "I"),
        TaskEvent.failItem], false) :=
  c6_not_permitted_fails ⟨"T", some 1, 30, [0], none, true⟩ 7 ⟨"I", 0, []⟩
    rfl (by decide) (by decide)

/-- Claim C7: when the output readiness callback is delivered a hang-up
condition together with a readable condition on a not-yet-closed master
descriptor, the pending readable data is read and logged first, and only
then are the hang-up actions taken (close, deregister, start exit-status
polling); the log action strictly precedes every hang-up action in the
trace. -/
theorem c7_drain_before_hangup (m : MasterPipe) (events : Nat)
    (hc : m.closed = false) (hin : events &&& EPOLLIN ≠ 0)
    (hhup : events &&& EPOLLHUP > 0) :
    on_subprocess_stdout m events =
      ({ closed := true, pending := "" },
       [IOAct.logOutput m.pending, IOAct.closeMaster, IOAct.removeHandler,
        IOAct.waitForEnd]) := by
  simp [on_subprocess_stdout, hc, hin, hhup]

/-- Witness for C7: readable data `"data"` plus hang-up in the same
notification (`events = EPOLLIN ||| EPOLLHUP = 17`). -/
theorem c7_witness :
    on_subprocess_stdout ⟨false, "data"⟩ 17 =
      ({ closed := true, pending := "" },
       [IOAct.logOutput "data", IOAct.closeMaster, IOAct.removeHandler,
        IOAct.waitForEnd]) :=
  c7_drain_before_hangup ⟨false, "data"⟩ 17 rfl (by decide) (by decide)

/-- Counterexample to claim C8 as stated: invoking the callback after the
master descriptor has been closed is not a no-op when the notification
carries the hang-up bit — the `if (events & EPOLLHUP) > 0` branch is not
guarded by `m.closed`, so the close/deregister/exit-watch actions are all
repeated. -/
theorem c8_counterexample :
    (on_subprocess_stdout ⟨true, ""⟩ 16).2 =
      [IOAct.closeMaster, IOAct.removeHandler, IOAct.waitForEnd] ∧
    (on_subprocess_stdout ⟨true, ""⟩ 16).2 ≠ [] :=
  ⟨rfl, by decide⟩

/-- Claim C8 (corrected).  After the master descriptor is closed, the
callback never reads or logs data again (no duplicate output), and an
invocation without the hang-up bit is a complete no-op; but an invocation
whose notification carries the hang-up bit repeats the
close/deregister/exit-watch actions — only the read path is guarded by
`m.closed`. -/
theorem c8_after_close_amended (m : MasterPipe) (events : Nat)
    (hc : m.closed = true) :
    (∀ s, IOAct.logOutput s ∉ (on_subprocess_stdout m events).2) ∧
    (events &&& EPOLLHUP = 0 → on_subprocess_stdout m events = (m, [])) ∧
    (events &&& EPOLLHUP > 0 →
      (on_subprocess_stdout m events).2 =
        [IOAct.closeMaster, IOAct.removeHandler, IOAct.waitForEnd]) := by
  by_cases hhup : events &&& EPOLLHUP > 0
  · have hfull : on_subprocess_stdout m events =
        ({ m with closed := true },
         [IOAct.closeMaster, IOAct.removeHandler, IOAct.waitForEnd]) := by
      simp [on_subprocess_stdout, hc, hhup]
    refine ⟨?_, ?_, ?_⟩
    · intro s
      rw [hfull]
      simp
    · intro h0
      omega
    · intro _
      rw [hfull]
  · have h0 : events &&& EPOLLHUP = 0 := by omega
    have hfull : on_subprocess_stdout m events = (m, []) := by
      simp [on_subprocess_stdout, hc, h0]
    refine ⟨?_, fun _ => hfull, ?_⟩
    · intro s
      rw [hfull]
      simp
    · intro hcon
      omega

/-- Witness for C8's amended theorem at a closed pipe with the hang-up bit. -/
theorem c8_witness :
    (∀ s, IOAct.logOutput s ∉ (on_subprocess_stdout ⟨true, "x"⟩ 16).2) ∧
    ((16 : Nat) &&& EPOLLHUP = 0 →
      on_subprocess_stdout ⟨true, "x"⟩ 16 = (⟨true, "x"⟩, [])) ∧
    ((16 : Nat) &&& EPOLLHUP > 0 →
      (on_subprocess_stdout ⟨true, "x"⟩ 16).2 =
        [IOAct.closeMaster, IOAct.removeHandler, IOAct.waitForEnd]) :=
  c8_after_close_amended ⟨true, "x"⟩ 16 rfl

/-- Claim C9: the sync-tool variant's stdin content is the concatenation, in
list order, of each file's path made relative to `target_source_path`
followed by a newline; for files `["a/b.txt", "a/c.txt"]` and
`target_source_path = "a/"` it is exactly `"b.txt\nc.txt\n"` (with any
working directory for the concrete instance; `"/work"` shown). -/
theorem c9_stdin_data_relative_paths :
    (∀ (cwd : String) (files : List String) (tsp : String),
      stdin_data cwd files tsp =
        String.join (files.map fun f => relpath cwd f tsp ++ "\n")) ∧
    stdin_data "/work" ["a/b.txt", "a/c.txt"] "a/" = "b.txt\nc.txt\n" :=
  ⟨fun _ _ _ => rfl, by decide⟩

/-- Claim C10: handling an accepted exit code leaves the item completely
unchanged — `tries` and every other field keep their values — and produces
exactly one output-log line (the finished line) followed by
`complete_item`; the `tries` counter is mutated only on the failure path,
where `handle_process_error` sets it to its value plus one. -/
theorem c10_result_frame :
    ∀ (cfg : Config) (e : Int) (item : Item),
      handle_process_result cfg e item =
        (item, [TaskEvent.logOutput (finishedLine cfg item.description),
                TaskEvent.completeItem]) ∧
      (handle_process_error cfg e item).1 =
        { item with tries := item.tries + 1 } :=
  fun cfg e item => ⟨rfl, handle_process_error_item cfg e item⟩

end ClaimTheorems

end Seesaw
